import Mathlib

/-!
Verification development for the fsql-lite ORM engine.

Strings from the Go source are modelled as `List Char`; the ASCII
case-mapping functions `Char.toUpper` / `Char.toLower` stand in for
Go's `strings.ToUpper` / `strings.ToLower` (every keyword and marker
the code compares against is ASCII).  Go machine integers are
modelled as `Int` with explicit two's-complement wrapping where an
overflow could matter.  Fallible Go code is modelled with `Option` /
`Except`; a Go `panic` is modelled as `none`.
-/

namespace FsqlLite

/-- Characters of a Lean string literal; the model of a Go string value. -/
def chars (s : String) : List Char := s.data

/-- Boolean test that the first list is an initial segment of the second
(the model of Go's `strings.HasPrefix`). -/
def isPrefOf : List Char → List Char → Bool
  | [], _ => true
  | _ :: _, [] => false
  | a :: as, b :: bs => a == b && isPrefOf as bs

/-- Index of the first occurrence of `pat` inside the scanned list, if any.
Scans left to right, so the returned index is the least one. -/
def strIndexOpt (pat : List Char) : List Char → Option Nat
  | [] => if isPrefOf pat [] then some 0 else none
  | c :: rest =>
    if isPrefOf pat (c :: rest) then some 0
    else (strIndexOpt pat rest).map (· + 1)

/-- Model of Go's `strings.Index`: first index of `pat` in `s`, `-1` when absent. -/
def goIndex (s pat : List Char) : Int :=
  match strIndexOpt pat s with
  | some n => (n : Int)
  | none => -1

/-- Model of Go's `strings.Contains`. -/
def strContainsB (s pat : List Char) : Bool := (strIndexOpt pat s).isSome

/-- Character-wise upper-casing (ASCII fragment of Go's `strings.ToUpper`). -/
def upperChars (s : List Char) : List Char := s.map Char.toUpper

/-- Character-wise lower-casing (ASCII fragment of Go's `strings.ToLower`). -/
def lowerChars (s : List Char) : List Char := s.map Char.toLower

/-- Embedding of `indexCaseInsensitive` (src/filters.go:357-361): upper-case
both strings, then run `strings.Index`. -/
def indexCaseInsensitive (s sub : List Char) : Int :=
  goIndex (upperChars s) (upperChars sub)

/-- Embedding of `selectCountPrefix` (src/filters.go:310). -/
def selectCountHead : List Char := chars "SELECT COUNT(*) FROM ("

/-- Embedding of `selectCountSuffix` (src/filters.go:311). -/
def selectCountTail : List Char := chars ") AS count_subquery"

/-- One truncation step of `BuildFilterCount` (src/filters.go:332-345): the
query is cut at the keyword's first case-insensitive index only when that
index is strictly positive (`if limitIndex > 0`). -/
def truncAtKw (q kw : List Char) : List Char :=
  let i := indexCaseInsensitive q kw
  if i > 0 then q.take i.toNat else q

/-- Embedding of `BuildFilterCount` (src/filters.go:324-353). -/
def buildFilterCount (baseQuery : List Char) : List Char :=
  let q1 := truncAtKw baseQuery (chars " LIMIT ")
  let q2 := truncAtKw q1 (chars " OFFSET ")
  let q3 := truncAtKw q2 (chars " ORDER BY ")
  selectCountHead ++ q3 ++ selectCountTail

/-- Count-query as claim C2 words it: truncation happens at the first
case-insensitive occurrence at any position (position 0 included), and the
subquery alias is spelled `subquery`. -/
def claimTruncC2 (q kw : List Char) : List Char :=
  match strIndexOpt (upperChars kw) (upperChars q) with
  | some i => q.take i
  | none => q

/-- Count-query builder exactly as claim C2 states it. -/
def buildFilterCountClaimedC2 (q : List Char) : List Char :=
  chars "SELECT COUNT(*) FROM (" ++
    claimTruncC2 (claimTruncC2 (claimTruncC2 q (chars " LIMIT "))
      (chars " OFFSET ")) (chars " ORDER BY ") ++
    chars ") AS subquery"

/-- Least case-insensitive occurrence index of `kw` in `q`, computed by
searching every position in order; the spec-side notion of the first
occurrence used by the amended claim C2. -/
def firstOccurrenceCI (q kw : List Char) : Option Nat :=
  (List.range (q.length + 1)).find?
    (fun i => isPrefOf (upperChars kw) ((upperChars q).drop i))

/-- Amended truncation: cut at the first case-insensitive occurrence, but
only when it starts at a strictly positive index. -/
def amendedTrunc (q kw : List Char) : List Char :=
  match firstOccurrenceCI q kw with
  | some i => if 0 < i then q.take i else q
  | none => q

/-- Count query as the amended claim C2 states it: strip at the first
strictly-positive occurrence of the three keywords in order, and wrap with
the alias `count_subquery`. -/
def amendedCountQuery (q : List Char) : List Char :=
  chars "SELECT COUNT(*) FROM (" ++
    amendedTrunc (amendedTrunc (amendedTrunc q (chars " LIMIT "))
      (chars " OFFSET ")) (chars " ORDER BY ") ++
    chars ") AS count_subquery"

theorem strIndexOpt_eq_find (pat s : List Char) :
    strIndexOpt pat s =
      (List.range (s.length + 1)).find? (fun i => isPrefOf pat (s.drop i)) := by
  induction s with
  | nil => cases h : isPrefOf pat [] <;> simp [strIndexOpt, h, List.range_succ]
  | cons c rest ih =>
    rw [show (c :: rest).length + 1 = (rest.length + 1) + 1 from rfl,
      List.range_succ_eq_map]
    cases h : isPrefOf pat (c :: rest) with
    | true =>
      rw [List.find?_cons_of_pos _ (by simpa using h)]
      simp [strIndexOpt, h]
    | false =>
      rw [List.find?_cons_of_neg _ (by simpa using h)]
      rw [List.find?_map]
      simp only [strIndexOpt, h, if_false]
      rw [ih]
      rfl

theorem truncAtKw_eq_amendedTrunc (q kw : List Char) :
    truncAtKw q kw = amendedTrunc q kw := by
  have hlen : q.length = (upperChars q).length :=
    (List.length_map q Char.toUpper).symm
  unfold truncAtKw amendedTrunc indexCaseInsensitive goIndex firstOccurrenceCI
  rw [hlen, ← strIndexOpt_eq_find]
  cases h : strIndexOpt (upperChars kw) (upperChars q) with
  | none => simp
  | some n =>
    by_cases hn : 0 < n
    · have hi : ((n : Int) > 0) := by exact_mod_cast hn
      simp only [hi, if_true, hn, Int.toNat_natCast]
    · have hn0 : n = 0 := Nat.eq_zero_of_not_pos hn
      subst hn0
      simp

/-- Claim C2 (amended): for every query string, `BuildFilterCount` wraps
the remainder obtained by the three strictly-positive-index truncations
(in the order LIMIT, OFFSET, ORDER BY) as
`SELECT COUNT(*) FROM (remainder) AS count_subquery`. -/
theorem c2_buildFilterCount_amended (q : List Char) :
    buildFilterCount q = amendedCountQuery q := by
  simp only [buildFilterCount, amendedCountQuery, truncAtKw_eq_amendedTrunc]
  rfl

/-- Claim C2 as frozen is false: on the input " LIMIT 1" the code ignores
the occurrence at position 0 and uses the alias `count_subquery`, while the
claim predicts truncation to the empty remainder and the alias `subquery`. -/
theorem c2_counterexample :
    buildFilterCount (chars " LIMIT 1") ≠
      buildFilterCountClaimedC2 (chars " LIMIT 1") := by
  decide

/-- Decimal digit character. -/
def digitChar (n : Nat) : Char := Char.ofNat (48 + n)

/-- Fueled decimal rendering of a natural number. -/
def natDecAux : Nat → Nat → List Char
  | n, 0 => [digitChar n]
  | n, fuel + 1 =>
    if n < 10 then [digitChar n]
    else natDecAux (n / 10) fuel ++ [digitChar (n % 10)]

/-- Decimal rendering of a natural number (model of Go's `fmt.Sprint`). -/
def natDec (n : Nat) : List Char := natDecAux n n

/-- Decimal rendering of an integer (model of Go's `fmt.Sprint` on int). -/
def intDec (i : Int) : List Char :=
  if i < 0 then '-' :: natDec i.natAbs else natDec i.toNat

/-- Two's-complement wrap of Go's signed 64-bit arithmetic. -/
def wrap64 (n : Int) : Int := (n + 2 ^ 63) % 2 ^ 64 - 2 ^ 63

/-- Go int64 subtraction. -/
def goSub (a b : Int) : Int := wrap64 (a - b)

/-- Go int64 multiplication. -/
def goMul (a b : Int) : Int := wrap64 (a * b)

theorem wrap64_eq_of_range (n : Int) (h1 : -2 ^ 63 ≤ n) (h2 : n < 2 ^ 63) :
    wrap64 n = n := by
  unfold wrap64
  rw [Int.emod_eq_of_lt (by omega) (by omega)]
  omega

/-- Untyped Go value passed through filter arguments and query parameters.
The `vjson` constructor abstracts the class of values the source's
`isJSONBType` classifies as JSONB (its payload is the marshaled JSON text
that `Value()` would produce); everything that is not a Go string nor
JSONB-classified is collapsed into `vother`. -/
inductive GoVal where
  | vstr : List Char → GoVal
  | vjson : List Char → GoVal
  | vother : Nat → GoVal
deriving DecidableEq, Repr

/-- Lower-casing applied to a filter value when the case-insensitive
operator family is used; the source's type assertion only fires on Go
strings (src/filters.go:155-157). -/
def lowerVal : GoVal → GoVal
  | .vstr s => .vstr (lowerChars s)
  | v => v

/-- Embedding of the `modelInfo` metadata record (src/cache.go:34-56),
restricted to the fields the verified claims touch.  Go maps are modelled
as association lists with first-match lookup and replacing updates. -/
structure ModelInfo where
  dbTagMap : List (List Char × List Char)
  dbInsertValueMap : List (List Char × List Char)
  dbFieldsSelect : List (List Char)
  dbFieldsInsert : List (List Char)
  dbFieldsUpdate : List (List Char)
  linkedFields : List (List Char × List Char)
  quotedTableName : List Char
  quotedFields : List (List Char × List Char)
deriving DecidableEq, Repr

/-- First-match association lookup, the model of Go map indexing. -/
def lookupAssoc {α : Type} (m : List (List Char × α)) (k : List Char) : Option α :=
  match m with
  | [] => none
  | (k', v) :: rest => if k' = k then some v else lookupAssoc rest k

/-- Replacing association update, the model of Go map assignment. -/
def setAssoc {α : Type} (m : List (List Char × α)) (k : List Char) (v : α) :
    List (List Char × α) :=
  match m with
  | [] => [(k, v)]
  | (k', v') :: rest =>
    if k' = k then (k, v) :: rest else (k', v') :: setAssoc rest k v

/-- Result of a Go call that can panic, return an error, or succeed. -/
inductive GoRes (α : Type) where
  | panicRes : GoRes α
  | errRes : List Char → GoRes α
  | okRes : α → GoRes α
deriving DecidableEq, Repr

/-- Embedding of the filter-key split (src/filters.go:117-126): the text
before the first `[` is the field name and the text between it and the
final character is the operator.  The Go slice
`filterKey[bracketIdx+1 : len(filterKey)-1]` panics when `[` is the last
character, modelled as `none`. -/
def parseFilterKey (k : List Char) : Option (List Char × List Char) :=
  match strIndexOpt (chars "[") k with
  | some i =>
    if i + 1 ≤ k.length - 1 then some (k.take i, (k.drop (i + 1)).dropLast)
    else none
  | none => some (k, [])

/-- Marker test for the case-insensitive operator family
(src/filters.go:141). -/
def isEuroOp (op : List Char) : Bool := isPrefOf (chars "€") op

/-- Embedding of the `operatorConditions` map (src/filters.go:35-52) as the
text surrounding the positional placeholder: rendered condition text is
`fst ++ "$" ++ decimal n ++ snd`.  An operator absent from the map falls
back to equality (src/filters.go:134-138). -/
def opCondTemplate (op : List Char) : List Char × List Char :=
  if op = chars "$prefix" ∨ op = chars "€prefix" ∨ op = chars "$suffix" ∨
      op = chars "€suffix" ∨ op = chars "$like" ∨ op = chars "€like" then
    (chars "LIKE $", [])
  else if op = chars "$gt" then (chars "> $", [])
  else if op = chars "$gte" then (chars ">= $", [])
  else if op = chars "$lt" then (chars "< $", [])
  else if op = chars "$lte" then (chars "<= $", [])
  else if op = chars "$ne" then (chars "!= $", [])
  else if op = chars "$in" then (chars "= ANY($", chars ")")
  else if op = chars "$nin" then (chars "!= ALL($", chars ")")
  else (chars "= $", [])

/-- Rendered single condition (src/filters.go:144-167), with the LOWER()
wrapping for the case-insensitive family. -/
def renderCondition (quotedTable dbField op : List Char) (n : Nat) : List Char :=
  let t := opCondTemplate op
  if isEuroOp op then
    chars "LOWER(" ++ quotedTable ++ chars "." ++ dbField ++ chars ") " ++
      t.1 ++ natDec n ++ t.2
  else
    quotedTable ++ chars "." ++ dbField ++ chars " " ++ t.1 ++ natDec n ++ t.2

/-- Filter-loop of `constructConditions` (src/filters.go:114-173): each
entry is key-split, resolved through the model's field-to-column map
(unresolved entries are skipped with `continue`), rendered, and numbered
by a counter that advances only on emitted conditions. -/
def ccLoop (mi : ModelInfo) (quotedTable : List Char) :
    List (List Char × GoVal) → Nat → GoRes (List (List Char) × List GoVal)
  | [], _ => .okRes ([], [])
  | (k, v) :: rest, counter =>
    match parseFilterKey k with
    | none => .panicRes
    | some (fieldName, op) =>
      match lookupAssoc mi.dbTagMap fieldName with
      | none => ccLoop mi quotedTable rest counter
      | some dbField =>
        let cond := renderCondition quotedTable dbField op counter
        let v' := if isEuroOp op then lowerVal v else v
        match ccLoop mi quotedTable rest (counter + 1) with
        | .okRes (cs, vs) => .okRes (cond :: cs, v' :: vs)
        | r => r

/-- Embedding of `constructConditions` (src/filters.go:77-178). -/
def constructConditions (registry : List (List Char × ModelInfo)) (t : List Char)
    (filters : List (List Char × GoVal)) (table : List Char) :
    GoRes (List (List Char) × List GoVal) :=
  match lookupAssoc registry table with
  | none => .errRes (chars "table name not initialized: " ++ table)
  | some mi => ccLoop mi (chars "\"" ++ t ++ chars "\"") filters 1

/-- Sort-loop of `FilterQuery` (src/filters.go:243-265): the direction is
upper-cased and validated first (invalid directions error out), then the
field is resolved; unresolved fields are dropped. -/
def sortLoop (mi : ModelInfo) (quotedTable : List Char) :
    List (List Char × List Char) → Except (List Char) (List (List Char))
  | [] => .ok []
  | (field, ord) :: rest =>
    let ordU := upperChars ord
    if ordU = chars "ASC" ∨ ordU = chars "DESC" then
      match lookupAssoc mi.dbTagMap field with
      | none => sortLoop mi quotedTable rest
      | some dbField =>
        match sortLoop mi quotedTable rest with
        | .ok cs =>
          .ok ((quotedTable ++ chars "." ++ dbField ++ chars " " ++ ordU) :: cs)
        | .error e => .error e
    else .error (chars "invalid sort order: " ++ ordU)

/-- Separator join (model of concatenating with `" AND "` / `", "`). -/
def joinSep (sep : List Char) : List (List Char) → List Char
  | [] => []
  | [x] => x
  | x :: y :: rest => x ++ sep ++ joinSep sep (y :: rest)

/-- Pagination tail appended by `FilterQuery` (src/filters.go:287-293):
LIMIT perPage OFFSET (page-1)*perPage in Go int64 arithmetic. -/
def paginationTail (perPage page : Int) : List Char :=
  chars " LIMIT " ++ intDec perPage ++ chars " OFFSET " ++
    intDec (goMul (goSub page 1) perPage)

/-- Empty metadata record (stands for the nil model of the unreachable
failed second lookup in src/filters.go:233). -/
def emptyModelInfo : ModelInfo := ⟨[], [], [], [], [], [], [], []⟩

/-- Embedding of `FilterQuery` (src/filters.go:196-301). -/
def filterQuery (registry : List (List Char × ModelInfo)) (baseQuery t : List Char)
    (filters : List (List Char × GoVal)) (sort : List (List Char × List Char))
    (table : List Char) (perPage page : Int) : GoRes (List Char × List GoVal) :=
  match constructConditions registry t filters table with
  | .panicRes => .panicRes
  | .errRes e => .errRes e
  | .okRes (conds, args) =>
    let withWhere := baseQuery ++
      (if conds = [] then [] else chars " WHERE " ++ joinSep (chars " AND ") conds)
    let mi := (lookupAssoc registry table).getD emptyModelInfo
    match sortLoop mi (chars "\"" ++ t ++ chars "\"") sort with
    | .error e => .errRes e
    | .ok clauses =>
      let withSort := withWhere ++
        (if clauses = [] then []
         else chars " ORDER BY " ++ joinSep (chars ", ") clauses)
      .okRes (withSort ++ paginationTail perPage page, args)

/-- Test that a filter entry's field name resolves in the model metadata
(after the key split of src/filters.go:117-126). -/
def resolvableFilterKey (mi : ModelInfo) (k : List Char) : Bool :=
  match parseFilterKey k with
  | some fo => (lookupAssoc mi.dbTagMap fo.1).isSome
  | none => false

theorem ccLoop_filter (mi : ModelInfo) (qt : List Char) :
    ∀ filters : List (List Char × GoVal),
      (∀ kv ∈ filters, (parseFilterKey kv.1).isSome = true) →
      ∀ counter,
        ccLoop mi qt filters counter =
          ccLoop mi qt (filters.filter fun kv => resolvableFilterKey mi kv.1)
            counter := by
  intro filters
  induction filters with
  | nil => intro _ _; rfl
  | cons kv rest ih =>
    intro hkeys counter
    obtain ⟨k, v⟩ := kv
    have hrest : ∀ kv ∈ rest, (parseFilterKey kv.1).isSome = true :=
      fun kv hkv => hkeys kv (List.mem_cons_of_mem _ hkv)
    have hk : (parseFilterKey k).isSome = true := hkeys (k, v) (by simp)
    cases hp : parseFilterKey k with
    | none => rw [hp] at hk; cases hk
    | some fo =>
      obtain ⟨fieldName, op⟩ := fo
      cases hl : lookupAssoc mi.dbTagMap fieldName with
      | none =>
        have hres : resolvableFilterKey mi k = false := by
          simp [resolvableFilterKey, hp, hl]
        rw [List.filter_cons, hres]
        simp only [ccLoop, hp, hl, Bool.false_eq_true, if_false]
        exact ih hrest counter
      | some dbField =>
        have hres : resolvableFilterKey mi k = true := by
          simp [resolvableFilterKey, hp, hl]
        rw [List.filter_cons, hres]
        simp only [ccLoop, hp, hl, if_true]
        rw [ih hrest (counter + 1)]

theorem sortLoop_filter (mi : ModelInfo) (qt : List Char) :
    ∀ sort : List (List Char × List Char),
      (∀ fo ∈ sort,
        upperChars fo.2 = chars "ASC" ∨ upperChars fo.2 = chars "DESC") →
      sortLoop mi qt sort =
        sortLoop mi qt
          (sort.filter fun fo => (lookupAssoc mi.dbTagMap fo.1).isSome) := by
  intro sort
  induction sort with
  | nil => intro _; rfl
  | cons fo rest ih =>
    intro hvalid
    obtain ⟨field, ord⟩ := fo
    have hrest : ∀ fo ∈ rest,
        upperChars fo.2 = chars "ASC" ∨ upperChars fo.2 = chars "DESC" :=
      fun fo hfo => hvalid fo (List.mem_cons_of_mem _ hfo)
    have hv : upperChars ord = chars "ASC" ∨ upperChars ord = chars "DESC" :=
      hvalid (field, ord) (by simp)
    cases hl : lookupAssoc mi.dbTagMap field with
    | none =>
      rw [List.filter_cons]
      simp only [hl, Option.isSome_none, Bool.false_eq_true, if_false]
      simp only [sortLoop, hv, if_pos, hl]
      exact ih hrest
    | some dbField =>
      rw [List.filter_cons]
      simp only [hl, Option.isSome_some, if_true]
      simp only [sortLoop, hv, if_pos, hl]
      rw [ih hrest]

/-- Claim C6 (confirmed for well-formed keys): compiling a filter/sort
specification equals compiling the specification with every entry whose
field name does not resolve in the model metadata removed, provided every
filter key is well-formed (the operator slice does not panic) and every
sort direction is valid. -/
theorem c6_unresolved_silently_dropped
    (registry : List (List Char × ModelInfo)) (baseQuery t : List Char)
    (filters : List (List Char × GoVal)) (sort : List (List Char × List Char))
    (table : List Char) (perPage page : Int) (mi : ModelInfo)
    (hmi : lookupAssoc registry table = some mi)
    (hkeys : ∀ kv ∈ filters, (parseFilterKey kv.1).isSome = true)
    (hsort : ∀ fo ∈ sort,
      upperChars fo.2 = chars "ASC" ∨ upperChars fo.2 = chars "DESC") :
    filterQuery registry baseQuery t filters sort table perPage page =
      filterQuery registry baseQuery t
        (filters.filter fun kv => resolvableFilterKey mi kv.1)
        (sort.filter fun fo => (lookupAssoc mi.dbTagMap fo.1).isSome)
        table perPage page := by
  unfold filterQuery constructConditions
  rw [hmi]
  simp only [Option.getD_some]
  rw [← ccLoop_filter mi _ filters hkeys 1, ← sortLoop_filter mi _ sort hsort]

/-- Model registry used by concrete witnesses: one table with a lone
resolvable field Key mapped to column key. -/
def witModel : ModelInfo :=
  ⟨[(chars "Key", chars "key")], [], [chars "key"], [chars "key"],
    [chars "key"], [], [], []⟩

/-- Registry holding `witModel` under table name tbl. -/
def witRegistry : List (List Char × ModelInfo) := [(chars "tbl", witModel)]

theorem c6_unresolved_silently_dropped_witness :
    filterQuery witRegistry (chars "SELECT 1") (chars "t")
        [(chars "Key", GoVal.vstr (chars "v")), (chars "Missing", GoVal.vother 1)]
        [(chars "Nope", chars "asc")] (chars "tbl") 5 1 =
      filterQuery witRegistry (chars "SELECT 1") (chars "t")
        ([(chars "Key", GoVal.vstr (chars "v")),
          (chars "Missing", GoVal.vother 1)].filter fun kv =>
            resolvableFilterKey witModel kv.1)
        ([(chars "Nope", chars "asc")].filter fun fo =>
          (lookupAssoc witModel.dbTagMap fo.1).isSome)
        (chars "tbl") 5 1 :=
  c6_unresolved_silently_dropped witRegistry (chars "SELECT 1") (chars "t")
    [(chars "Key", GoVal.vstr (chars "v")), (chars "Missing", GoVal.vother 1)]
    [(chars "Nope", chars "asc")] (chars "tbl") 5 1 witModel
    (by decide) (by decide) (by decide)

set_option maxRecDepth 8192 in
/-- Claim C6 as frozen is false: the filter key "x[" has the unresolved
field name x, yet the compiler panics on the operator slice instead of
omitting the entry, while the same compilation without the entry
succeeds. -/
theorem c6_counterexample :
    filterQuery witRegistry (chars "SELECT 1") (chars "t")
        [(chars "x[", GoVal.vother 0)] [] (chars "tbl") 1 1 = .panicRes ∧
    filterQuery witRegistry (chars "SELECT 1") (chars "t") [] []
        (chars "tbl") 1 1 =
      .okRes (chars "SELECT 1 LIMIT 1 OFFSET 0", []) := by
  decide

/-- Claim C7: every successful compilation ends with LIMIT perPage and
OFFSET (page-1)*perPage, computed in Go int64 arithmetic and rendered in
decimal; when the subtraction and the product stay inside the int64 range
the offset equals the mathematical (page-1)*perPage, so a non-positive
page yields a negative offset passed through unchanged. -/
theorem c7_pagination_suffix (registry : List (List Char × ModelInfo))
    (baseQuery t : List Char) (filters : List (List Char × GoVal))
    (sort : List (List Char × List Char)) (table : List Char)
    (perPage page : Int) (out : List Char × List GoVal)
    (h : filterQuery registry baseQuery t filters sort table perPage page =
      .okRes out) :
    (∃ pre, out.1 = pre ++ (chars " LIMIT " ++ intDec perPage ++
      chars " OFFSET " ++ intDec (goMul (goSub page 1) perPage))) ∧
    (∀ off : Int, off = (page - 1) * perPage →
      -2 ^ 63 ≤ page - 1 → page - 1 < 2 ^ 63 → -2 ^ 63 ≤ off → off < 2 ^ 63 →
      goMul (goSub page 1) perPage = off) := by
  constructor
  · unfold filterQuery at h
    cases hc : constructConditions registry t filters table with
    | panicRes => rw [hc] at h; cases h
    | errRes e => rw [hc] at h; cases h
    | okRes p =>
      obtain ⟨conds, args⟩ := p
      rw [hc] at h
      simp only at h
      cases hs : sortLoop ((lookupAssoc registry table).getD emptyModelInfo)
          (chars "\"" ++ t ++ chars "\"") sort with
      | error e => rw [hs] at h; cases h
      | ok clauses =>
        rw [hs] at h
        simp only at h
        injection h with h2
        rw [← h2]
        exact ⟨_, rfl⟩
  · intro off hoff h1 h2 h3 h4
    subst hoff
    unfold goMul goSub
    rw [wrap64_eq_of_range (page - 1) h1 h2, wrap64_eq_of_range _ h3 h4]

set_option maxRecDepth 8192 in
theorem c7_pagination_suffix_witness :
    ((∃ pre, (chars "SELECT 1 LIMIT 10 OFFSET 10", ([] : List GoVal)).1 =
      pre ++ (chars " LIMIT " ++ intDec 10 ++ chars " OFFSET " ++
        intDec (goMul (goSub 2 1) 10))) ∧
    (∀ off : Int, off = (2 - 1) * 10 →
      -2 ^ 63 ≤ 2 - 1 → (2 : Int) - 1 < 2 ^ 63 → -2 ^ 63 ≤ off → off < 2 ^ 63 →
      goMul (goSub 2 1) 10 = off)) :=
  c7_pagination_suffix witRegistry (chars "SELECT 1") (chars "t") [] []
    (chars "tbl") 10 2 (chars "SELECT 1 LIMIT 10 OFFSET 10", [])
    (by decide)

/-- One annotated record-type field, carrying the Go struct tags read by
`InitModelTagCache` (src/cache.go:157-178). -/
structure GoStructField where
  name : List Char
  dbTag : List Char
  dbMode : List Char
  dbInsertValue : List Char
deriving DecidableEq, Repr

/-- Comma split of the dbMode tag value (the manual split loop of
src/cache.go:184-193, which also yields empty segments). -/
def splitComma : List Char → List (List Char)
  | [] => [[]]
  | c :: rest =>
    if c = ',' then [] :: splitComma rest
    else
      match splitComma rest with
      | [] => [[c]]
      | h :: t => (c :: h) :: t

/-- Mode-flag membership (src/cache.go:195-207); an empty dbMode tag sets
no flag at all. -/
def hasMode (f : GoStructField) (m : List Char) : Bool :=
  if f.dbMode = [] then false else (splitComma f.dbMode).any (fun x => x = m)

/-- Model of the `quotesReplacer` (src/cache.go:60): remove every double
quote. -/
def stripQuotes (s : List Char) : List Char := s.filter (fun c => c ≠ '"')

/-- One iteration of the field loop of `InitModelTagCache`
(src/cache.go:157-234): fields without a usable db tag are ignored; l/link
fields become linked fields; s fields (flag named modeSkip in the source)
enter only the field-to-column map; i/u flags feed the insert/update lists;
every remaining field joins the select list. -/
def initStep (mi : ModelInfo) (f : GoStructField) : ModelInfo :=
  if f.dbTag = [] ∨ f.dbTag = chars "-" then mi
  else
    let quoted := chars "\"" ++ stripQuotes f.dbTag ++ chars "\""
    let mi0 := { mi with quotedFields := setAssoc mi.quotedFields f.dbTag quoted }
    if hasMode f (chars "l") || hasMode f (chars "link") then
      { mi0 with linkedFields := setAssoc mi0.linkedFields f.name f.dbTag }
    else
      let mi1 := { mi0 with dbTagMap := setAssoc mi0.dbTagMap f.name f.dbTag }
      if hasMode f (chars "s") then mi1
      else
        let mi2 :=
          if hasMode f (chars "i") then
            { mi1 with
              dbFieldsInsert := mi1.dbFieldsInsert ++ [f.dbTag],
              dbInsertValueMap :=
                if f.dbInsertValue = [] then mi1.dbInsertValueMap
                else setAssoc mi1.dbInsertValueMap f.dbTag f.dbInsertValue }
          else mi1
        let mi3 :=
          if hasMode f (chars "u") then
            { mi2 with dbFieldsUpdate := mi2.dbFieldsUpdate ++ [f.dbTag] }
          else mi2
        { mi3 with dbFieldsSelect := mi3.dbFieldsSelect ++ [f.dbTag] }

/-- Embedding of `InitModelTagCache` (src/cache.go:114-271) on the list of
annotated fields of the registered record type. -/
def initModelTagCache (fields : List GoStructField) (tableName : List Char) :
    ModelInfo :=
  fields.foldl initStep
    { emptyModelInfo with
      quotedTableName := chars "\"" ++ stripQuotes tableName ++ chars "\"" }

/-- Embedding of `computeFieldsByModeInternal` (src/cache.go:296-347): the
second component (the field-name list) is the input column list itself. -/
def computeFieldsByModeInternal (dbFields : List (List Char))
    (quotedTableName : List Char) (quotedFields : List (List Char × List Char))
    (aliasTableName : List Char) : List (List Char) × List (List Char) :=
  (dbFields.map fun fieldName =>
      let q := (lookupAssoc quotedFields fieldName).getD []
      if aliasTableName = [] then quotedTableName ++ chars "." ++ q
      else
        chars "\"" ++ stripQuotes aliasTableName ++ chars "\"." ++ q ++
          chars " AS \"" ++ stripQuotes aliasTableName ++ chars "." ++
          fieldName ++ chars "\"",
   dbFields)

/-- Embedding of `GetSelectFields` (src/cache.go:349-374); the per-alias
cache only memoizes this computation and is elided. -/
def getSelectFields (mi : ModelInfo) (aliasTableName : List Char) :
    List (List Char) × List (List Char) :=
  computeFieldsByModeInternal mi.dbFieldsSelect mi.quotedTableName
    mi.quotedFields aliasTableName

/-- Field used by the C3 counterexample: mode tag s only. -/
def c3SkipField : GoStructField :=
  ⟨chars "Flagged", chars "flagged", chars "s", []⟩

/-- Claim C3 as frozen is false: a field whose mode tag contains s is also
excluded from the select column list (the source maps s to modeSkip), so
its column is not in the list the select-fields accessor returns. -/
theorem c3_counterexample :
    ((initModelTagCache [c3SkipField] (chars "tbl")).dbFieldsSelect.any
        (fun x => x = chars "flagged")) = false ∧
    (getSelectFields (initModelTagCache [c3SkipField] (chars "tbl")) []).2 =
      [] := by
  decide

theorem initStep_not_mem (mi : ModelInfo) (f : GoStructField) (c : List Char)
    (h : f.dbTag = c → hasMode f (chars "s") = true)
    (hs : c ∉ mi.dbFieldsSelect) (hi : c ∉ mi.dbFieldsInsert)
    (hu : c ∉ mi.dbFieldsUpdate) :
    c ∉ (initStep mi f).dbFieldsSelect ∧ c ∉ (initStep mi f).dbFieldsInsert ∧
      c ∉ (initStep mi f).dbFieldsUpdate := by
  unfold initStep
  by_cases htag : f.dbTag = [] ∨ f.dbTag = chars "-"
  · simp only [htag, if_true]
    exact ⟨hs, hi, hu⟩
  · simp only [htag, if_false]
    by_cases hlink : (hasMode f (chars "l") || hasMode f (chars "link")) = true
    · simp only [hlink, if_true]
      exact ⟨hs, hi, hu⟩
    · simp only [Bool.not_eq_true] at hlink
      simp only [hlink, Bool.false_eq_true, if_false]
      by_cases hskip : hasMode f (chars "s") = true
      · simp only [hskip, if_true]
        exact ⟨hs, hi, hu⟩
      · have hne : f.dbTag ≠ c := fun hc => hskip (h hc)
        simp only [Bool.not_eq_true] at hskip
        simp only [hskip, Bool.false_eq_true, if_false]
        by_cases hins : hasMode f (chars "i") = true <;>
          by_cases hupd : hasMode f (chars "u") = true <;>
          simp_all [List.mem_append] <;> exact fun hc => hne hc.symm

theorem foldl_initStep_not_mem (c : List Char) :
    ∀ (fields : List GoStructField) (mi : ModelInfo),
      (∀ f ∈ fields, f.dbTag = c → hasMode f (chars "s") = true) →
      c ∉ mi.dbFieldsSelect → c ∉ mi.dbFieldsInsert → c ∉ mi.dbFieldsUpdate →
      c ∉ (fields.foldl initStep mi).dbFieldsSelect ∧
        c ∉ (fields.foldl initStep mi).dbFieldsInsert ∧
        c ∉ (fields.foldl initStep mi).dbFieldsUpdate := by
  intro fields
  induction fields with
  | nil => intro mi _ hs hi hu; exact ⟨hs, hi, hu⟩
  | cons f rest ih =>
    intro mi hfs hs hi hu
    simp only [List.foldl_cons]
    obtain ⟨h1, h2, h3⟩ := initStep_not_mem mi f c (hfs f (by simp)) hs hi hu
    exact ih (initStep mi f)
      (fun g hg hgc => hfs g (List.mem_cons_of_mem _ hg) hgc) h1 h2 h3

/-- Claim C3 (amended): a column whose every carrying field has a mode tag
containing s is excluded from the select, insert, and update column lists
alike (s means skip, not select-only), hence also from what the
select-fields accessor returns. -/
theorem c3_mode_s_excluded (fields : List GoStructField)
    (tableName c : List Char)
    (h : ∀ f ∈ fields, f.dbTag = c → hasMode f (chars "s") = true) :
    c ∉ (initModelTagCache fields tableName).dbFieldsSelect ∧
    c ∉ (initModelTagCache fields tableName).dbFieldsInsert ∧
    c ∉ (initModelTagCache fields tableName).dbFieldsUpdate ∧
    ∀ al,
      c ∉ (getSelectFields (initModelTagCache fields tableName) al).2 := by
  unfold initModelTagCache
  obtain ⟨h1, h2, h3⟩ :=
    foldl_initStep_not_mem c fields
      { emptyModelInfo with
        quotedTableName := chars "\"" ++ stripQuotes tableName ++ chars "\"" }
      h (by simp [emptyModelInfo]) (by simp [emptyModelInfo])
      (by simp [emptyModelInfo])
  exact ⟨h1, h2, h3, fun _ => h1⟩

theorem c3_mode_s_excluded_witness :
    chars "flagged" ∉
        (initModelTagCache [c3SkipField] (chars "tbl")).dbFieldsSelect ∧
      chars "flagged" ∉
        (initModelTagCache [c3SkipField] (chars "tbl")).dbFieldsInsert ∧
      chars "flagged" ∉
        (initModelTagCache [c3SkipField] (chars "tbl")).dbFieldsUpdate ∧
      ∀ al,
        chars "flagged" ∉
          (getSelectFields (initModelTagCache [c3SkipField] (chars "tbl"))
            al).2 :=
  c3_mode_s_excluded [c3SkipField] (chars "tbl") (chars "flagged") (by decide)

/-- Embedding of the `retryableErrors` substring list
(src/transaction.go:46-59). -/
def retryableErrors : List (List Char) :=
  [chars "deadlock detected", chars "serialize", chars "serialization",
   chars "conflict", chars "concurrent update",
   chars "could not serialize access", chars "deadlock",
   chars "lock wait timeout", chars "lock timeout",
   chars "connection reset", chars "40001", chars "40P01"]

/-- Embedding of `isRetryableError` (src/transaction.go:258-271) on a
non-nil error message: lower-case the message and look for any known
substring. -/
def isRetryableError (msg : List Char) : Bool :=
  retryableErrors.any (fun pat => strContainsB (lowerChars msg) pat)

/-- Overall outcome of `WithTxRetryOptions`: success, an immediately
returned non-retryable error, or the max-retries error optionally wrapping
the last attempt's error. -/
inductive RetryOutcome where
  | success : RetryOutcome
  | failed : List Char → RetryOutcome
  | exhausted : Option (List Char) → RetryOutcome
deriving DecidableEq, Repr

/-- Embedding of the attempt loop of `WithTxRetryOptions`
(src/transaction.go:219-255) together with the number of body invocations
performed in it.  The transaction body is abstracted as the per-attempt
outcome of `WithTxOptions` (`none` = committed, `some msg` = the error
after rollback); backoff sleeps do not change outcomes and the context is
never cancelled in this model. -/
def retryLoop (fn : Nat → Option (List Char)) :
    Nat → Nat → Option (List Char) → RetryOutcome × Nat
  | _, 0, lastErr => (.exhausted lastErr, 0)
  | attempt, rem + 1, _ =>
    match fn attempt with
    | none => (.success, 1)
    | some e =>
      if isRetryableError e then
        let r := retryLoop fn (attempt + 1) rem (some e)
        (r.1, r.2 + 1)
      else (.failed e, 1)

/-- Embedding of `WithTxRetryOptions` (src/transaction.go:219-255). -/
def withTxRetryOptions (maxRetries : Nat) (fn : Nat → Option (List Char)) :
    RetryOutcome × Nat :=
  retryLoop fn 0 maxRetries none

theorem retryLoop_count_le (fn : Nat → Option (List Char)) :
    ∀ (rem attempt : Nat) (last : Option (List Char)),
      (retryLoop fn attempt rem last).2 ≤ rem := by
  intro rem
  induction rem with
  | zero => intro _ _; simp [retryLoop]
  | succ r ih =>
    intro attempt last
    simp only [retryLoop]
    cases hfn : fn attempt with
    | none => simp
    | some e =>
      by_cases hr : isRetryableError e = true
      · simp only [hr, if_true]
        have := ih (attempt + 1) (some e)
        omega
      · simp only [Bool.not_eq_true] at hr
        simp [hr]

theorem retryLoop_success (fn : Nat → Option (List Char)) :
    ∀ (k rem attempt : Nat) (last : Option (List Char)), k < rem →
      (∀ j < k, ∃ e, fn (attempt + j) = some e ∧ isRetryableError e = true) →
      fn (attempt + k) = none →
      retryLoop fn attempt rem last = (.success, k + 1) := by
  intro k
  induction k with
  | zero =>
    intro rem attempt last hk _ hnone
    obtain ⟨r, rfl⟩ : ∃ r, rem = r + 1 := ⟨rem - 1, by omega⟩
    rw [show attempt + 0 = attempt from rfl] at hnone
    simp [retryLoop, hnone]
  | succ k ih =>
    intro rem attempt last hk hfail hnone
    obtain ⟨r, rfl⟩ : ∃ r, rem = r + 1 := ⟨rem - 1, by omega⟩
    obtain ⟨e, he, hre⟩ := hfail 0 (by omega)
    rw [show attempt + 0 = attempt from rfl] at he
    have hrec : retryLoop fn (attempt + 1) r (some e) = (.success, k + 1) := by
      refine ih r (attempt + 1) (some e) (by omega) ?_ ?_
      · intro j hj
        obtain ⟨e2, he2, hr2⟩ := hfail (j + 1) (by omega)
        exact ⟨e2,
          by rw [show attempt + 1 + j = attempt + (j + 1) by omega]; exact he2,
          hr2⟩
      · rw [show attempt + 1 + k = attempt + (k + 1) by omega]
        exact hnone
    simp [retryLoop, he, hre, hrec]

theorem retryLoop_failed (fn : Nat → Option (List Char)) :
    ∀ (k rem attempt : Nat) (last : Option (List Char)) (e : List Char),
      k < rem →
      (∀ j < k, ∃ e2, fn (attempt + j) = some e2 ∧ isRetryableError e2 = true) →
      fn (attempt + k) = some e → isRetryableError e = false →
      retryLoop fn attempt rem last = (.failed e, k + 1) := by
  intro k
  induction k with
  | zero =>
    intro rem attempt last e hk _ hsome hnr
    obtain ⟨r, rfl⟩ : ∃ r, rem = r + 1 := ⟨rem - 1, by omega⟩
    rw [show attempt + 0 = attempt from rfl] at hsome
    simp [retryLoop, hsome, hnr]
  | succ k ih =>
    intro rem attempt last e hk hfail hsome hnr
    obtain ⟨r, rfl⟩ : ∃ r, rem = r + 1 := ⟨rem - 1, by omega⟩
    obtain ⟨e0, he0, hre0⟩ := hfail 0 (by omega)
    rw [show attempt + 0 = attempt from rfl] at he0
    have hrec : retryLoop fn (attempt + 1) r (some e0) = (.failed e, k + 1) := by
      refine ih r (attempt + 1) (some e0) e (by omega) ?_ ?_ hnr
      · intro j hj
        obtain ⟨e2, he2, hr2⟩ := hfail (j + 1) (by omega)
        exact ⟨e2,
          by rw [show attempt + 1 + j = attempt + (j + 1) by omega]; exact he2,
          hr2⟩
      · rw [show attempt + 1 + k = attempt + (k + 1) by omega]
        exact hsome
    simp [retryLoop, he0, hre0, hrec]

theorem retryLoop_exhausted (fn : Nat → Option (List Char)) :
    ∀ (rem attempt : Nat) (last : Option (List Char)), 0 < rem →
      (∀ j < rem, ∃ e, fn (attempt + j) = some e ∧ isRetryableError e = true) →
      ∃ e, fn (attempt + (rem - 1)) = some e ∧
        retryLoop fn attempt rem last = (.exhausted (some e), rem) := by
  intro rem
  induction rem with
  | zero => intro attempt last h; exact absurd h (by omega)
  | succ r ih =>
    intro attempt last _ hall
    obtain ⟨e, he, hre⟩ := hall 0 (by omega)
    rw [show attempt + 0 = attempt from rfl] at he
    by_cases hr0 : r = 0
    · subst hr0
      refine ⟨e, by simpa using he, ?_⟩
      simp [retryLoop, he, hre]
    · obtain ⟨e2, he2, hloop⟩ := ih (attempt + 1) (some e) (by omega)
        (fun j hj => by
          obtain ⟨e3, he3, hr3⟩ := hall (j + 1) (by omega)
          exact ⟨e3,
            by rw [show attempt + 1 + j = attempt + (j + 1) by omega]; exact he3,
            hr3⟩)
      refine ⟨e2, ?_, ?_⟩
      · rw [show attempt + (r + 1 - 1) = attempt + 1 + (r - 1) by omega]
        exact he2
      · have hcount : (retryLoop fn (attempt + 1) r (some e)).2 = r := by
          rw [hloop]
        simp [retryLoop, he, hre, hloop]

/-- The transaction body of the concrete scenario of claim C4: a
deadlock-classified failure on the first two attempts, success on the
third. -/
def deadlockScenario (i : Nat) : Option (List Char) :=
  if i < 2 then some (chars "ERROR: deadlock detected (SQLSTATE 40P01)")
  else none

/-- Claim C4: the retrying executor invokes the body at most MaxRetries
times; an attempt that succeeds stops the loop with overall success after
exactly that many invocations; a non-retryable error is returned at once;
MaxRetries consecutive retryable failures produce the max-retries error
wrapping the last error after exactly MaxRetries invocations; and the
two-deadlocks-then-success body under MaxRetries 3 succeeds with the body
invoked exactly 3 times. -/
theorem c4_retry_executor :
    (∀ (n : Nat) (fn : Nat → Option (List Char)),
      (withTxRetryOptions n fn).2 ≤ n) ∧
    (∀ (n : Nat) (fn : Nat → Option (List Char)) (k : Nat), k < n →
      (∀ j < k, ∃ e, fn j = some e ∧ isRetryableError e = true) →
      fn k = none → withTxRetryOptions n fn = (.success, k + 1)) ∧
    (∀ (n : Nat) (fn : Nat → Option (List Char)) (k : Nat) (e : List Char),
      k < n →
      (∀ j < k, ∃ e2, fn j = some e2 ∧ isRetryableError e2 = true) →
      fn k = some e → isRetryableError e = false →
      withTxRetryOptions n fn = (.failed e, k + 1)) ∧
    (∀ (n : Nat) (fn : Nat → Option (List Char)), 0 < n →
      (∀ j < n, ∃ e, fn j = some e ∧ isRetryableError e = true) →
      ∃ e, fn (n - 1) = some e ∧
        withTxRetryOptions n fn = (.exhausted (some e), n)) ∧
    withTxRetryOptions 3 deadlockScenario = (.success, 3) := by
  refine ⟨?_, ?_, ?_, ?_, ?_⟩
  · intro n fn; exact retryLoop_count_le fn n 0 none
  · intro n fn k hk hfail hnone
    exact retryLoop_success fn k n 0 none hk (by simpa using hfail)
      (by simpa using hnone)
  · intro n fn k e hk hfail hsome hnr
    exact retryLoop_failed fn k n 0 none e hk (by simpa using hfail)
      (by simpa using hsome) hnr
  · intro n fn hn hall
    obtain ⟨e, he, hloop⟩ := retryLoop_exhausted fn n 0 none hn
      (by simpa using hall)
    exact ⟨e, by simpa using he, hloop⟩
  · decide

theorem c4_retry_executor_witness :
    withTxRetryOptions 3 deadlockScenario = (.success, 3) ∧
    withTxRetryOptions 2 (fun _ => some (chars "boom")) =
      (.failed (chars "boom"), 1) :=
  ⟨c4_retry_executor.2.2.2.2,
   c4_retry_executor.2.2.1 2 (fun _ => some (chars "boom")) 0 (chars "boom")
     (by omega) (by omega) rfl (by decide)⟩

/-- Destination kinds distinguished by `scanSingle`
(src/unnamed/part_007:132-180): a primitive (non-struct), a struct
implementing sql.Scanner, or a plain struct scanned via field mapping. -/
inductive DestKind where
  | structDest : DestKind
  | primitiveDest : DestKind
  | scannerDest : DestKind
deriving DecidableEq, Repr

/-- Outcome of a single-destination scan: the distinguished no-rows error
(sql.ErrNoRows), success, or the multiple-rows error. -/
inductive ScanSingleOutcome where
  | noRowsErr : ScanSingleOutcome
  | okScan : ScanSingleOutcome
  | multiRowsErr : ScanSingleOutcome
deriving DecidableEq, Repr

/-- Embedding of `scanSingle` (src/unnamed/part_007:132-180).  The cursor
is modelled as the list of rows it will yield; row and scan errors are
absent in this model.  The primitive and Scanner paths return right after
scanning the first row; only the plain-struct path calls rows.Next() again
to reject extra rows. -/
def scanSingle (kind : DestKind) : List Nat → ScanSingleOutcome
  | [] => .noRowsErr
  | _ :: rest =>
    match kind with
    | .primitiveDest => .okScan
    | .scannerDest => .okScan
    | .structDest => if rest = [] then .okScan else .multiRowsErr

/-- Claim C5 as frozen is false: a primitive single destination facing two
rows succeeds on the first row instead of returning an error, and so does
a Scanner destination. -/
theorem c5_counterexample :
    scanSingle .primitiveDest [1, 2] = .okScan ∧
    scanSingle .scannerDest [1, 2] = .okScan := by
  decide

/-- Claim C5 (amended): zero rows yield the distinguished not-found
outcome and one row succeeds for every destination kind, but more than one
row is an error only for plain struct destinations; primitive and Scanner
destinations scan the first row and ignore the extras. -/
theorem c5_single_row_discipline (kind : DestKind) (rows : List Nat) :
    (rows = [] → scanSingle kind rows = .noRowsErr) ∧
    (rows.length = 1 → scanSingle kind rows = .okScan) ∧
    (2 ≤ rows.length →
      scanSingle kind rows =
        if kind = .structDest then .multiRowsErr else .okScan) := by
  refine ⟨fun h => by subst h; rfl, fun h => ?_, fun h => ?_⟩
  · match rows, h with
    | [r], _ => cases kind <;> rfl
  · match rows, h with
    | r1 :: r2 :: rest, _ =>
      cases kind <;> simp [scanSingle]

theorem c5_single_row_discipline_witness :
    scanSingle .structDest [1, 2] = .multiRowsErr ∧
    scanSingle .primitiveDest [7] = .okScan :=
  ⟨by
    have h := (c5_single_row_discipline .structDest [1, 2]).2.2 (by decide)
    simpa using h,
   (c5_single_row_discipline .primitiveDest [7]).2.1 (by decide)⟩

/-- Traversal entry cached by `getTraversalsAndScanners`
(src/unnamed/part_007:33-37): one optional field-index path per result
column plus the parallel Scanner flags. -/
structure TraversalEntry where
  traversals : List (Option (List Nat))
  hasScanner : List Bool
deriving DecidableEq, Repr

/-- Computation of a traversal entry from the destination type's field map
(src/unnamed/part_007:211-235); the field map sends a column path name to
the field-index path and whether the field implements sql.Scanner.  A
column absent from the map keeps a nil path and a false flag. -/
def computeEntry (tm : List (List Char × (List Nat × Bool)))
    (columns : List (List Char)) : TraversalEntry :=
  { traversals := columns.map (fun col => (lookupAssoc tm col).map Prod.fst),
    hasScanner := columns.map (fun col =>
      match lookupAssoc tm col with
      | some fi => fi.2
      | none => false) }

/-- Cache key built by `getTraversalsAndScanners`
(src/unnamed/part_007:185-201): the type name, a colon, and the full
comma-joined column list. -/
def traversalCacheKey (typeName : List Char) (columns : List (List Char)) :
    List Char :=
  typeName ++ chars ":" ++ joinSep (chars ",") columns

/-- Embedding of `getTraversalsAndScanners` (src/unnamed/part_007:183-246):
look the key up in the traversal cache; on a miss compute the entry from
the type's field map and store it.  Returns the entry used and the updated
cache. -/
def getTraversalsAndScanners (cache : List (List Char × TraversalEntry))
    (typeName : List Char) (tm : List (List Char × (List Nat × Bool)))
    (columns : List (List Char)) :
    TraversalEntry × List (List Char × TraversalEntry) :=
  let key := traversalCacheKey typeName columns
  match lookupAssoc cache key with
  | some e => (e, cache)
  | none =>
    let e := computeEntry tm columns
    (e, setAssoc cache key e)

/-- Claim C8: the traversal cache key contains the destination type, so
two scans over the same column list with different destination record
types each use the traversal computed from their own type's field map. -/
theorem c8_traversal_keyed_by_type (t1 t2 : List Char)
    (tm1 tm2 : List (List Char × (List Nat × Bool)))
    (columns : List (List Char)) (hne : t1 ≠ t2) :
    (getTraversalsAndScanners [] t1 tm1 columns).1 = computeEntry tm1 columns ∧
    (getTraversalsAndScanners (getTraversalsAndScanners [] t1 tm1 columns).2
        t2 tm2 columns).1 = computeEntry tm2 columns := by
  have hkey : traversalCacheKey t1 columns ≠ traversalCacheKey t2 columns := by
    intro h
    apply hne
    unfold traversalCacheKey at h
    exact List.append_cancel_right (List.append_cancel_right h)
  have hfst : getTraversalsAndScanners [] t1 tm1 columns =
      (computeEntry tm1 columns,
        [(traversalCacheKey t1 columns, computeEntry tm1 columns)]) := rfl
  refine ⟨by rw [hfst], ?_⟩
  rw [hfst]
  show (match lookupAssoc [(traversalCacheKey t1 columns,
      computeEntry tm1 columns)] (traversalCacheKey t2 columns) with
    | some e => (e, _)
    | none => (computeEntry tm2 columns, _)).1 = computeEntry tm2 columns
  simp only [lookupAssoc, hkey, if_false]

theorem c8_traversal_keyed_by_type_witness :
    (getTraversalsAndScanners [] (chars "fsql.A")
        [(chars "a", ([0], false))] [chars "a"]).1 =
      computeEntry [(chars "a", ([0], false))] [chars "a"] ∧
    (getTraversalsAndScanners
        (getTraversalsAndScanners [] (chars "fsql.A")
          [(chars "a", ([0], false))] [chars "a"]).2
        (chars "fsql.B") [(chars "a", ([1], true))] [chars "a"]).1 =
      computeEntry [(chars "a", ([1], true))] [chars "a"] :=
  c8_traversal_keyed_by_type (chars "fsql.A") (chars "fsql.B")
    [(chars "a", ([0], false))] [(chars "a", ([1], true))] [chars "a"]
    (by decide)

/-- Embedding of the legacy `getColumnFingerprint` (src/scanner.go:296-309):
the full bar-joined concatenation below five columns, and
first + "|" + last + "|" + count from five columns up. -/
def getColumnFingerprint (columns : List (List Char)) : List Char :=
  if columns.length < 5 then joinSep (chars "|") columns
  else
    columns.headD [] ++ chars "|" ++ columns.getLastD [] ++ chars "|" ++
      natDec columns.length

/-- Store operation of the legacy scanner's `columnCacheMap`
(src/scanner.go:66-79): the key is the column fingerprint alone. -/
def legacyCacheStore (cache : List (List Char × TraversalEntry))
    (columns : List (List Char)) (entry : TraversalEntry) :
    List (List Char × TraversalEntry) :=
  setAssoc cache (getColumnFingerprint columns) entry

/-- Load operation of the legacy scanner's `columnCacheMap`
(src/scanner.go:66-68). -/
def legacyCacheLoad (cache : List (List Char × TraversalEntry))
    (columns : List (List Char)) : Option TraversalEntry :=
  lookupAssoc cache (getColumnFingerprint columns)

/-- First column list of the C9 collision pair. -/
def c9cols1 : List (List Char) :=
  [chars "a", chars "b", chars "c", chars "d", chars "e"]

/-- Second column list of the C9 collision pair: same first element, last
element and length, different middle. -/
def c9cols2 : List (List Char) :=
  [chars "a", chars "x", chars "c", chars "d", chars "e"]

/-- Entry stored for the first column list in the C9 scenario. -/
def c9entry : TraversalEntry :=
  computeEntry [(chars "a", ([0], false))] c9cols1

/-- Claim C9: the large-set fingerprint is not injective - the two
distinct five-column lists agree on first element, last element and
length, receive the same fingerprint, and the fingerprint-keyed cache
returns the entry stored for the first list when queried with the
second. -/
theorem c9_fingerprint_collision :
    c9cols1 ≠ c9cols2 ∧
    5 ≤ c9cols1.length ∧ 5 ≤ c9cols2.length ∧
    c9cols1.headD [] = c9cols2.headD [] ∧
    c9cols1.getLastD [] = c9cols2.getLastD [] ∧
    c9cols1.length = c9cols2.length ∧
    getColumnFingerprint c9cols1 = getColumnFingerprint c9cols2 ∧
    legacyCacheLoad (legacyCacheStore [] c9cols1 c9entry) c9cols2 =
      some c9entry := by
  decide

/-- JSONB classification of `isJSONBType` (src/unnamed/part_009:36-81)
abstracted through the GoVal constructors: exactly the vjson values are
classified as JSONB. -/
def isJSONBType : GoVal → Bool
  | .vjson _ => true
  | _ => false

/-- Argument appended for a matched set field: a JSONB value contributes
its marshaled JSON text (src/unnamed/part_009:148-161), every other value
contributes itself. -/
def updateArgOf : GoVal → GoVal
  | .vjson p => .vstr p
  | v => v

/-- The set-clause loop of `GetUpdateQuery` (src/unnamed/part_009:141-170):
walks the registered update field names, rendering one clause and one
argument per field present in the values map; the placeholder counter
starts at 1 and advances once per match.  Returns the clauses, the
arguments and the final counter. -/
def updLoop (vm : List (List Char × GoVal)) :
    List (List Char) → Nat → (List (List Char) × List GoVal) × Nat
  | [], counter => (([], []), counter)
  | field :: rest, counter =>
    match lookupAssoc vm field with
    | none => updLoop vm rest counter
    | some v =>
      let r := updLoop vm rest (counter + 1)
      ((( field ++ chars " = $" ++ natDec counter ++
          (if isJSONBType v then chars "::jsonb" else [])) :: r.1.1,
        updateArgOf v :: r.1.2), r.2)

/-- Final UPDATE statement shape (src/unnamed/part_009:172). -/
def updateQueryText (tableName : List Char) (setClauses : List (List Char))
    (counter : Nat) (returning : List Char) : List Char :=
  chars "UPDATE \"" ++ tableName ++ chars "\" SET " ++
    joinSep (chars ", ") setClauses ++ chars " WHERE \"" ++ tableName ++
    chars "\".\"" ++ returning ++ chars "\" = $" ++ natDec counter ++
    chars " RETURNING \"" ++ tableName ++ chars "\"." ++ returning

/-- Embedding of `GetUpdateQuery` (src/unnamed/part_009:135-180),
parameterized by the registered update field names of the table.  The
panic on a values map without the returning key is modelled as `none`;
when the key is present its raw value is appended after the set
arguments. -/
def getUpdateQuery (updateFieldNames : List (List Char))
    (tableName : List Char) (valuesMap : List (List Char × GoVal))
    (returning : List Char) : Option (List Char × List GoVal) :=
  let r := updLoop valuesMap updateFieldNames 1
  let query := updateQueryText tableName r.1.1 r.2 returning
  match lookupAssoc valuesMap returning with
  | none => none
  | some v => some (query, r.1.2 ++ [v])

theorem updLoop_counter (vm : List (List Char × GoVal)) :
    ∀ (fields : List (List Char)) (counter : Nat),
      (updLoop vm fields counter).2 =
        counter + (updLoop vm fields counter).1.2.length := by
  intro fields
  induction fields with
  | nil => intro counter; simp [updLoop]
  | cons field rest ih =>
    intro counter
    simp only [updLoop]
    cases hl : lookupAssoc vm field with
    | none => exact ih counter
    | some v =>
      simp only [List.length_cons]
      rw [ih (counter + 1)]
      omega

/-- Claim C10: when the values map has no entry under the returning column
the function panics (modelled as none); when the entry is present, the
returning value is appended as the final query argument, and the WHERE
placeholder number equals the total argument count, so that final argument
is the one bound to the WHERE clause. -/
theorem c10_getUpdateQuery (updateFieldNames : List (List Char))
    (tableName : List Char) (valuesMap : List (List Char × GoVal))
    (returning : List Char) :
    (lookupAssoc valuesMap returning = none →
      getUpdateQuery updateFieldNames tableName valuesMap returning = none) ∧
    (∀ v, lookupAssoc valuesMap returning = some v →
      ∃ clauses args,
        getUpdateQuery updateFieldNames tableName valuesMap returning =
          some (updateQueryText tableName clauses (args.length + 1) returning,
            args ++ [v]) ∧
        (args ++ [v]).getLast? = some v ∧
        (args ++ [v]).length = args.length + 1) := by
  constructor
  · intro h
    unfold getUpdateQuery
    rw [h]
  · intro v h
    refine ⟨(updLoop valuesMap updateFieldNames 1).1.1,
      (updLoop valuesMap updateFieldNames 1).1.2, ?_, ?_, by simp⟩
    · simp only [getUpdateQuery, h]
      rw [updLoop_counter valuesMap updateFieldNames 1, Nat.add_comm 1 _]
    · exact List.getLast?_concat _

theorem c10_getUpdateQuery_witness :
    getUpdateQuery [chars "key"] (chars "tbl") [(chars "key", GoVal.vstr
      (chars "k"))] (chars "uuid") = none ∧
    ∃ clauses args,
      getUpdateQuery [chars "key"] (chars "tbl")
          [(chars "key", GoVal.vstr (chars "k")),
           (chars "uuid", GoVal.vstr (chars "u1"))] (chars "uuid") =
        some (updateQueryText (chars "tbl") clauses (args.length + 1)
          (chars "uuid"), args ++ [GoVal.vstr (chars "u1")]) ∧
      (args ++ [GoVal.vstr (chars "u1")]).getLast? =
        some (GoVal.vstr (chars "u1")) ∧
      (args ++ [GoVal.vstr (chars "u1")]).length = args.length + 1 :=
  ⟨(c10_getUpdateQuery [chars "key"] (chars "tbl")
      [(chars "key", GoVal.vstr (chars "k"))] (chars "uuid")).1 (by decide),
   (c10_getUpdateQuery [chars "key"] (chars "tbl")
      [(chars "key", GoVal.vstr (chars "k")),
       (chars "uuid", GoVal.vstr (chars "u1"))] (chars "uuid")).2
     (GoVal.vstr (chars "u1")) (by decide)⟩

/-- The pgx transaction object behind the wrapper, tracking whether the
backend transaction was completed (after which pgx reports ErrTxClosed
from every call). -/
structure PgxTx where
  closed : Bool
deriving DecidableEq, Repr

/-- The Tx wrapper state (src/transaction.go:18-20) together with a count
of calls delegated to the backend transaction object.  The tx field is nil
only in a zero-value wrapper: BeginTx always sets it
(src/transaction.go:83) and no method ever clears it. -/
structure TxState where
  txField : Option PgxTx
  backendCalls : Nat
deriving DecidableEq, Repr

/-- Result of one wrapper operation: ErrTxDone returned locally without a
backend call, a nil error, or an error derived from the backend's
ErrTxClosed. -/
inductive TxOpResult where
  | errTxDone : TxOpResult
  | okResult : TxOpResult
  | backendClosedErr : TxOpResult
deriving DecidableEq, Repr

/-- Embedding of Tx.Commit (src/transaction.go:87-103): a nil tx field
returns ErrTxDone; otherwise the commit is delegated to the backend
object, wrapping its error when it was already completed.  The wrapper
leaves its tx field set in every case. -/
def txCommit (s : TxState) : TxOpResult × TxState :=
  match s.txField with
  | none => (.errTxDone, s)
  | some b =>
    if b.closed then
      (.backendClosedErr,
        { txField := some b, backendCalls := s.backendCalls + 1 })
    else
      (.okResult,
        { txField := some { closed := true },
          backendCalls := s.backendCalls + 1 })

/-- Embedding of Tx.Rollback (src/transaction.go:106-122): the backend's
ErrTxClosed is explicitly swallowed, so a rollback after completion
returns a nil error. -/
def txRollback (s : TxState) : TxOpResult × TxState :=
  match s.txField with
  | none => (.errTxDone, s)
  | some _ =>
    (.okResult,
      { txField := some { closed := true },
        backendCalls := s.backendCalls + 1 })

/-- Embedding of Tx.Exec / ExecContext / Query / QueryContext
(src/transaction.go:125-158): a nil tx field returns ErrTxDone, otherwise
the call is delegated to the backend object, which reports ErrTxClosed
when the transaction already completed. -/
def txExec (s : TxState) : TxOpResult × TxState :=
  match s.txField with
  | none => (.errTxDone, s)
  | some b =>
    ((if b.closed then .backendClosedErr else .okResult),
      { txField := some b, backendCalls := s.backendCalls + 1 })

/-- A transaction handle as BeginTx returns it (src/transaction.go:83). -/
def freshTx : TxState := { txField := some { closed := false }, backendCalls := 0 }

/-- Claim C1 evaluated on the code at the failing trace: after a completed
Commit the wrapper still holds a non-nil tx field, so the following Exec
is delegated to the backend (the backend-call count rises) and returns the
ErrTxClosed-derived error instead of ErrTxDone; a second Commit likewise
wraps the backend error, and a Rollback after Rollback even returns nil. -/
theorem c1_post_terminal_operations :
    (txCommit freshTx).1 = .okResult ∧
    (txCommit freshTx).2.txField ≠ none ∧
    (txExec (txCommit freshTx).2).1 = .backendClosedErr ∧
    (txExec (txCommit freshTx).2).1 ≠ .errTxDone ∧
    (txExec (txCommit freshTx).2).2.backendCalls = 2 ∧
    (txCommit (txCommit freshTx).2).1 = .backendClosedErr ∧
    (txRollback (txRollback freshTx).2).1 = .okResult := by
  decide

end FsqlLite
